import Mathlib

/-!
Shallow embedding of the numerical core of the `ivivc-level-selector`
repository (dissolution models, PK models, deconvolution, correlation and
validation metrics), together with theorems settling the specification
claims.  Machine floats are modelled as exact rationals (`ℚ`); the closed
forms that need `exp` / `log` / `sqrt` live in `ℝ`.
-/

set_option autoImplicit false

namespace IVIVC

/-- Clip a value to the interval `[0, 1]` (models `np.clip(x, 0.0, 1.0)`). -/
def clip01 (x : ℚ) : ℚ := max 0 (min x 1)

/-- Cumulative trapezoidal sums: `trapCum t v i` is the trapezoidal
integral of the sampled signal `v` over the first `i` intervals of the time
grid `t`.  This is the loop
`acc[i] = acc[i-1] + 0.5 * (v[i-1] + v[i]) * (t[i] - t[i-1])`
shared by `wagner_nelson` and `numerical_deconvolution` in
`src/utils/deconvolution.py`. -/
def trapCum (times vals : ℕ → ℚ) : ℕ → ℚ
  | 0 => 0
  | i + 1 => trapCum times vals i + (vals i + vals (i + 1)) * (times (i + 1) - times i) / 2

/-- Result record of `wagner_nelson` (the returned dict). -/
structure WNResult where
  fraction_absorbed : ℕ → ℚ
  auc_cumulative : ℕ → ℚ
  auc_total : ℚ
  amount_absorbed : ℕ → ℚ

/-- `wagner_nelson(times, conc, ke)` from `src/utils/deconvolution.py`,
for arrays of length `n` (indices `0 ≤ i < n`; `conc (n-1)` is `conc[-1]`). -/
def wagner_nelson (n : ℕ) (times conc : ℕ → ℚ) (ke : ℚ) : WNResult :=
  let auc := trapCum times conc
  let aucTotal := if 0 < ke then auc (n - 1) + conc (n - 1) / ke else auc (n - 1)
  let amount := fun i => conc i + ke * auc i
  let denom := ke * aucTotal
  { fraction_absorbed := fun i => clip01 (if 0 < denom then amount i / denom else 0)
    auc_cumulative := auc
    auc_total := aucTotal
    amount_absorbed := amount }

/-- One pass of the inner loop of `numerical_deconvolution`: the value the
loop assigns to `r[i]`, given the list `prev` of the already-computed
`r[0..i-1]` (pre-flooring, exactly as in the Python loop). -/
def pointAreaStep (n : ℕ) (times conc h : ℕ → ℚ) (dt : ℚ) (i : ℕ) (prev : List ℚ) : ℚ :=
  let sumPrev := (List.range i).foldl
    (fun acc j =>
      acc + (if i - j < n then prev.getD j 0 * h (i - j) * (times (min (j + 1) (n - 1)) - times j) else 0))
    0
  if 0 < h 0 ∧ 0 < i then
    (if 0 < times i - times (i - 1) then (conc i - sumPrev) / (h 0 * (times i - times (i - 1))) else 0)
  else if i = 0 ∧ 0 < h 0 then conc 0 / (h 0 * dt)
  else 0

/-- The list `[r[0], …, r[m-1]]` built by the deconvolution loop of
`numerical_deconvolution` (before the final `np.maximum(r, 0.0)`). -/
def rawRates (n : ℕ) (times conc h : ℕ → ℚ) (dt : ℚ) : ℕ → List ℚ
  | 0 => []
  | m + 1 =>
    let prev := rawRates n times conc h dt m
    prev ++ [pointAreaStep n times conc h dt m prev]

/-- The estimated input rate `r = np.maximum(r, 0.0)` of
`numerical_deconvolution` (0 outside the array). -/
def inputRate (n : ℕ) (times conc h : ℕ → ℚ) (dt : ℚ) (i : ℕ) : ℚ :=
  max ((rawRates n times conc h dt n).getD i 0) 0

/-- Result record of `numerical_deconvolution`. -/
structure NDResult where
  input_rate : ℕ → ℚ
  fraction_absorbed : ℕ → ℚ

/-- `numerical_deconvolution(times, conc, impulse_response, dt)` from
`src/utils/deconvolution.py`, for arrays of length `n`. -/
def numerical_deconvolution (n : ℕ) (times conc h : ℕ → ℚ) (dt : ℚ) : NDResult :=
  let r := inputRate n times conc h dt
  let faCum := trapCum times r
  { input_rate := r
    fraction_absorbed := if 0 < faCum (n - 1) then fun i => faCum i / faCum (n - 1) else faCum }

/-- Trapezoidal rule over a list of `(time, value)` pairs; models
`np.trapezoid(y, x)` as used in `src/utils/dissolution_models.py`. -/
def trapzPairs : List (ℚ × ℚ) → ℚ
  | [] => 0
  | [_] => 0
  | (t0, y0) :: (t1, y1) :: rest =>
    (y0 + y1) * (t1 - t0) / 2 + trapzPairs ((t1, y1) :: rest)

/-- `np.trapezoid(vals, times)` for equal-length sample lists. -/
def trapz (vals times : List ℚ) : ℚ := trapzPairs (times.zip vals)

/-- `compute_de(times, release)` from `src/utils/dissolution_models.py`:
dissolution efficiency as a percentage of the bounding rectangle
`release[-1] * (times[-1] - times[0])`. -/
def compute_de (times release : List ℚ) : ℚ :=
  let auc := trapz release times
  let maxPossible := (release.getLastD 0) * (times.getLastD 0 - times.headI)
  if maxPossible = 0 then 0 else auc / maxPossible * 100

/-- Modelled from the spec: the dissolution-efficiency formula as the spec
sentence words it, with the bounding rectangle `release_end × t_end`
(final release value times the final time point, not the time span).
Used only to compare against `compute_de`. -/
def compute_de_claimed (times release : List ℚ) : ℚ :=
  let auc := trapz release times
  let maxPossible := (release.getLastD 0) * times.getLastD 0
  if maxPossible = 0 then 0 else auc / maxPossible * 100

/-- Mean squared deviation `np.sum((ref - test) ** 2) / n` from
`compute_f1_f2` in `src/utils/dissolution_models.py`. -/
def meanSqDiff (ref test : List ℚ) : ℚ :=
  (((ref.zip test).map fun p => (p.1 - p.2) ^ 2).sum) / ref.length

/-- The `f1` (difference factor) part of `compute_f1_f2`. -/
def f1Factor (ref test : List ℚ) : ℚ :=
  if 0 < ref.sum then (((ref.zip test).map fun p => |p.1 - p.2|).sum) / ref.sum * 100 else 0

/-- The `f2` (similarity factor) part of `compute_f1_f2`:
`50 * log10(100 / sqrt(1 + mean_sq_diff))`. -/
noncomputable def f2Factor (ref test : List ℚ) : ℝ :=
  50 * Real.logb 10 (100 / Real.sqrt (1 + (meanSqDiff ref test : ℝ)))

/-- `compute_f1_f2(ref_profile, test_profile)` from
`src/utils/dissolution_models.py`. -/
noncomputable def compute_f1_f2 (ref test : List ℚ) : ℚ × ℝ :=
  (f1Factor ref test, f2Factor ref test)

/-- `one_compartment_oral(t, dose, ka, ke, vd)` from `src/utils/pk_models.py`.
Parameters are exact rationals (machine floats); the concentration is real
because of `exp`.  The float literal `1e-10` is the rational `1/10^10`. -/
noncomputable def one_compartment_oral (t dose ka ke vd : ℚ) : ℝ :=
  if |ka - ke| < 1 / 10 ^ 10 then
    ((dose / vd : ℚ) : ℝ) * (ka : ℝ) * (t : ℝ) * Real.exp (-(ke : ℝ) * (t : ℝ))
  else
    ((dose * ka / (vd * (ka - ke)) : ℚ) : ℝ) *
      (Real.exp (-(ke : ℝ) * (t : ℝ)) - Real.exp (-(ka : ℝ) * (t : ℝ)))

/-- Arithmetic mean of a list (`np.mean`). -/
def listMean (xs : List ℚ) : ℚ := xs.sum / xs.length

/-- Sum of squared deviations from the mean. -/
def ssDev (xs : List ℚ) : ℚ := ((xs.map fun v => (v - listMean xs) ^ 2).sum)

/-- Sum of cross products of deviations from the means. -/
def ssCross (xs ys : List ℚ) : ℚ :=
  (((xs.zip ys).map fun p => (p.1 - listMean xs) * (p.2 - listMean ys)).sum)

/-- Modelled from the spec: the slope of the ordinary least-squares fit
computed by `scipy.stats.linregress` (an external dependency, not in
`src/`). -/
def linregressSlope (xs ys : List ℚ) : ℚ := ssCross xs ys / ssDev xs

/-- Modelled from the spec: the intercept of the `scipy.stats.linregress`
ordinary least-squares fit. -/
def linregressIntercept (xs ys : List ℚ) : ℚ :=
  listMean ys - linregressSlope xs ys * listMean xs

/-- Modelled from the spec: the squared correlation `r_value ** 2` of the
`scipy.stats.linregress` fit.  `linregress` sets `r = 0` when either sum of
squared deviations is zero and clamps `r` to `[-1, 1]` before the caller
squares it; in exact arithmetic `r² = ssxym² / (ssxm · ssym)`. -/
def linregressRsq (xs ys : List ℚ) : ℚ :=
  if ssDev xs = 0 ∨ ssDev ys = 0 then 0
  else min 1 ((ssCross xs ys) ^ 2 / (ssDev xs * ssDev ys))

/-- Result record of `level_a_correlation` (the returned dict). -/
structure LevelAResult where
  slope : ℚ
  intercept : ℚ
  r_squared : ℚ
  p_value : ℚ
  std_err : ℚ
  all_dissolved : List ℚ
  all_absorbed : List ℚ

/-- Result record of `level_c_correlation` (the returned dict). -/
structure LevelCResult where
  slope : ℚ
  intercept : ℚ
  r_squared : ℚ
  p_value : ℚ
  std_err : ℚ
  in_vitro : List ℚ
  in_vivo : List ℚ

/-- The pooled in-vitro data of `level_a_correlation`: for each formulation
the first `min(len(diss), len(abso))` dissolved values, concatenated. -/
def pooledDissolved (dl al : List (List ℚ)) : List ℚ :=
  ((dl.zip al).map fun p => p.1.take (min p.1.length p.2.length)).flatten

/-- The pooled in-vivo data of `level_a_correlation`: for each formulation
the first `min(len(diss), len(abso))` absorbed values, concatenated. -/
def pooledAbsorbed (dl al : List (List ℚ)) : List ℚ :=
  ((dl.zip al).map fun p => p.2.take (min p.1.length p.2.length)).flatten

/-- `level_a_correlation(dissolved_fractions, absorbed_fractions)` from
`src/utils/ivivc_calculations.py`.  `pv` and `se` are parameters modelling,
from the spec, the p-value and standard error that `scipy.stats.linregress`
returns in the non-degenerate branch (their closed forms — a Student-t tail
probability and a residual standard error — are fixed by scipy, not by this
repository, and no claim depends on them). -/
def level_a_correlation (pv se : List ℚ → List ℚ → ℚ) (dl al : List (List ℚ)) : LevelAResult :=
  let xs := pooledDissolved dl al
  let ys := pooledAbsorbed dl al
  if xs.length < 2 then
    { slope := 0, intercept := 0, r_squared := 0, p_value := 1, std_err := 0
      all_dissolved := xs, all_absorbed := ys }
  else
    { slope := linregressSlope xs ys
      intercept := linregressIntercept xs ys
      r_squared := linregressRsq xs ys
      p_value := pv xs ys
      std_err := se xs ys
      all_dissolved := xs, all_absorbed := ys }

/-- `level_c_correlation(in_vitro_values, in_vivo_values)` from
`src/utils/ivivc_calculations.py`; `pv`, `se` as in `level_a_correlation`. -/
def level_c_correlation (pv se : List ℚ → List ℚ → ℚ) (x y : List ℚ) : LevelCResult :=
  if x.length < 2 then
    { slope := 0, intercept := 0, r_squared := 0, p_value := 1, std_err := 0
      in_vitro := x, in_vivo := y }
  else
    { slope := linregressSlope x y
      intercept := linregressIntercept x y
      r_squared := linregressRsq x y
      p_value := pv x y
      std_err := se x y
      in_vitro := x, in_vivo := y }

/-- Result record of `compute_prediction_error` (the returned dict). -/
structure PEResult where
  pe_values : List ℚ
  abs_pe : List ℚ
  mean_abs_pe : ℚ
  max_abs_pe : ℚ
  passes_mean : Bool
  passes_individual : Bool
  passes_overall : Bool

/-- The per-item `%PE` of `compute_prediction_error`: 0 where the observed
value is 0, else `(predicted - observed) / observed * 100`. -/
def peItem (p : ℚ × ℚ) : ℚ := if p.2 = 0 then 0 else (p.1 - p.2) / p.2 * 100

/-- `compute_prediction_error(predicted, observed)` from
`src/utils/ivivc_calculations.py`. -/
def compute_prediction_error (predicted observed : List ℚ) : PEResult :=
  let pe := (predicted.zip observed).map peItem
  let ape := pe.map fun v => |v|
  let meanAbs := ape.sum / ape.length
  let maxAbs := if 0 < ape.length then ape.foldl max 0 else 0
  { pe_values := pe
    abs_pe := ape
    mean_abs_pe := meanAbs
    max_abs_pe := maxAbs
    passes_mean := decide (meanAbs ≤ 10)
    passes_individual := decide (maxAbs ≤ 15)
    passes_overall := decide (meanAbs ≤ 10 ∧ maxAbs ≤ 15) }

/-! ### Concrete inputs used by witnesses and counterexamples -/

/-- A small strictly increasing time grid `0, 1, 2, …`. -/
def wTimes : ℕ → ℚ := fun i => i

/-- A small nonnegative concentration series `0, 1, 1, …`. -/
def wConc : ℕ → ℚ := fun i => if i = 0 then 0 else 1

/-! ### Helper lemmas -/

theorem clip01_nonneg (x : ℚ) : 0 ≤ clip01 x := le_max_left 0 (min x 1)

theorem clip01_le_one (x : ℚ) : clip01 x ≤ 1 :=
  max_le zero_le_one (min_le_right x 1)

theorem trapCum_succ (times vals : ℕ → ℚ) (i : ℕ) :
    trapCum times vals (i + 1) =
      trapCum times vals i + (vals i + vals (i + 1)) * (times (i + 1) - times i) / 2 := rfl

theorem trapCum_le_succ (times vals : ℕ → ℚ) (i : ℕ)
    (ht : times i ≤ times (i + 1)) (h0 : 0 ≤ vals i) (h1 : 0 ≤ vals (i + 1)) :
    trapCum times vals i ≤ trapCum times vals (i + 1) := by
  rw [trapCum_succ]
  have : 0 ≤ (vals i + vals (i + 1)) * (times (i + 1) - times i) / 2 := by
    apply div_nonneg _ (by norm_num)
    exact mul_nonneg (add_nonneg h0 h1) (sub_nonneg.mpr ht)
  linarith

theorem trapCum_mono (times vals : ℕ → ℚ) (m : ℕ)
    (ht : ∀ i, i < m → times i ≤ times (i + 1))
    (hv : ∀ i, i ≤ m → 0 ≤ vals i) :
    ∀ i j, i ≤ j → j ≤ m → trapCum times vals i ≤ trapCum times vals j := by
  intro i j hij hjm
  induction j with
  | zero =>
    have hi0 : i = 0 := by omega
    subst hi0
    exact le_rfl
  | succ k ih =>
    rcases Nat.lt_or_ge i (k + 1) with hik | hik
    · have h1 : trapCum times vals i ≤ trapCum times vals k :=
        ih (by omega) (by omega)
      have h2 : trapCum times vals k ≤ trapCum times vals (k + 1) :=
        trapCum_le_succ times vals k (ht k (by omega)) (hv k (by omega)) (hv (k + 1) (by omega))
      exact le_trans h1 h2
    · have : i = k + 1 := by omega
      subst this
      exact le_rfl

theorem trapCum_nonneg (times vals : ℕ → ℚ) (m : ℕ)
    (ht : ∀ i, i < m → times i ≤ times (i + 1))
    (hv : ∀ i, i ≤ m → 0 ≤ vals i) :
    0 ≤ trapCum times vals m :=
  trapCum_mono times vals m ht hv 0 m (Nat.zero_le m) le_rfl

/-! ### Claims about `wagner_nelson` (C1, C4) -/

/-- C1: for every concentration series with nonnegative values over a
strictly increasing time grid and every `ke > 0`, `wagner_nelson` computes
the cumulative trapezoidal `AUC(0,t)` with `AUC(0,t_0) = 0`, the total
`AUC(0,∞) = AUC(0,t_last) + C(t_last)/ke`, and returns
`fraction_absorbed(t) = (C(t) + ke·AUC(0,t)) / (ke·AUC(0,∞))` clipped to
`[0,1]`; and for all inputs whatsoever every returned `fraction_absorbed`
value lies in `[0,1]`. -/
theorem wagner_nelson_spec (n : ℕ) (times conc : ℕ → ℚ) (ke : ℚ)
    (hn : 1 ≤ n) (hke : 0 < ke)
    (hmono : ∀ i, i < n - 1 → times i < times (i + 1))
    (hconc : ∀ i, i < n → 0 ≤ conc i) :
    (wagner_nelson n times conc ke).auc_cumulative 0 = 0 ∧
    (∀ i, i + 1 < n →
      (wagner_nelson n times conc ke).auc_cumulative (i + 1) =
        (wagner_nelson n times conc ke).auc_cumulative i +
          (conc i + conc (i + 1)) * (times (i + 1) - times i) / 2) ∧
    (wagner_nelson n times conc ke).auc_total =
      (wagner_nelson n times conc ke).auc_cumulative (n - 1) + conc (n - 1) / ke ∧
    (∀ i, i < n →
      (wagner_nelson n times conc ke).fraction_absorbed i =
        clip01 ((conc i + ke * (wagner_nelson n times conc ke).auc_cumulative i) /
          (ke * (wagner_nelson n times conc ke).auc_total))) ∧
    (∀ (m : ℕ) (ts cs : ℕ → ℚ) (k : ℚ) (i : ℕ),
      0 ≤ (wagner_nelson m ts cs k).fraction_absorbed i ∧
      (wagner_nelson m ts cs k).fraction_absorbed i ≤ 1) := by
  have haucnn : 0 ≤ trapCum times conc (n - 1) := by
    apply trapCum_nonneg times conc (n - 1)
    · exact fun i hi => (hmono i hi).le
    · exact fun i hi => hconc i (by omega)
  have htot : (wagner_nelson n times conc ke).auc_total =
      trapCum times conc (n - 1) + conc (n - 1) / ke := by
    simp only [wagner_nelson]
    rw [if_pos hke]
  have htotnn : 0 ≤ (wagner_nelson n times conc ke).auc_total := by
    rw [htot]
    exact add_nonneg haucnn (div_nonneg (hconc (n - 1) (by omega)) hke.le)
  refine ⟨rfl, fun i _ => rfl, ?_, ?_, ?_⟩
  · exact htot
  · intro i _
    show clip01 (if 0 < ke * (wagner_nelson n times conc ke).auc_total then _ else 0) = _
    by_cases hd : 0 < ke * (wagner_nelson n times conc ke).auc_total
    · rw [if_pos hd]
      rfl
    · rw [if_neg hd]
      have hd0 : ke * (wagner_nelson n times conc ke).auc_total = 0 :=
        le_antisymm (not_lt.mp hd) (mul_nonneg hke.le htotnn)
      rw [hd0, div_zero]
  · intro m ts cs k i
    exact ⟨clip01_nonneg _, clip01_le_one _⟩

theorem wagner_nelson_spec_witness :
    ((1 ≤ 3) ∧ (0 : ℚ) < 1 ∧ (∀ i, i < 3 - 1 → wTimes i < wTimes (i + 1)) ∧
      (∀ i, i < 3 → 0 ≤ wConc i)) ∧
    (wagner_nelson 3 wTimes wConc 1).auc_cumulative 0 = 0 :=
  ⟨⟨by decide, by decide, by decide, by decide⟩,
    (wagner_nelson_spec 3 wTimes wConc 1 (by decide) (by decide) (by decide) (by decide)).1⟩

/-- C4 counterexample: with `ke = 0 ≤ 0`, `times = [0, 1]`, `conc = [1, 1]`,
the returned `auc_total` is `1`, not `0` as the claim states. -/
theorem wagner_nelson_ke_nonpos_cex :
    (wagner_nelson 2 wTimes (fun _ => 1) 0).auc_total = 1 ∧ (1 : ℚ) ≠ 0 := by
  constructor
  · show (if (0 : ℚ) < 0 then trapCum wTimes (fun _ => 1) (2 - 1) + (1 : ℚ) / 0
        else trapCum wTimes (fun _ => 1) (2 - 1)) = 1
    rw [if_neg (lt_irrefl (0 : ℚ))]
    show (0 : ℚ) + ((1 : ℚ) + 1) * (wTimes 1 - wTimes 0) / 2 = 1
    norm_num [wTimes]
  · norm_num

/-- C4 (amended): when `wagner_nelson` is called with `ke ≤ 0`, the returned
`auc_total` equals the unextrapolated cumulative trapezoidal AUC up to the
last sample (`auc_cumulative` at the last index) — the `C(t_last)/ke`
extrapolation term is dropped, but the total is not zeroed. -/
theorem wagner_nelson_ke_nonpos (n : ℕ) (times conc : ℕ → ℚ) (ke : ℚ)
    (hke : ke ≤ 0) :
    (wagner_nelson n times conc ke).auc_total =
      (wagner_nelson n times conc ke).auc_cumulative (n - 1) := by
  simp only [wagner_nelson]
  rw [if_neg (not_lt.mpr hke)]

theorem wagner_nelson_ke_nonpos_witness :
    (0 : ℚ) ≤ 0 ∧
    (wagner_nelson 2 wTimes (fun _ => 1) 0).auc_total =
      (wagner_nelson 2 wTimes (fun _ => 1) 0).auc_cumulative 1 :=
  ⟨le_refl 0, wagner_nelson_ke_nonpos 2 wTimes (fun _ => 1) 0 (le_refl 0)⟩

/-! ### Claim about `numerical_deconvolution` (C9) -/

/-- C9: for every strictly increasing time grid, `numerical_deconvolution`
returns a non-negative `input_rate`, and a `fraction_absorbed` that is
non-decreasing, bounded in `[0,1]`, and equal to `1` at the last index
whenever its unnormalized cumulative integral is positive. -/
theorem numerical_deconvolution_spec (n : ℕ) (times conc h : ℕ → ℚ) (dt : ℚ)
    (hn : 1 ≤ n) (hmono : ∀ i, i < n - 1 → times i < times (i + 1)) :
    (∀ i, 0 ≤ (numerical_deconvolution n times conc h dt).input_rate i) ∧
    (∀ i, i + 1 < n →
      (numerical_deconvolution n times conc h dt).fraction_absorbed i ≤
        (numerical_deconvolution n times conc h dt).fraction_absorbed (i + 1)) ∧
    (∀ i, i < n →
      0 ≤ (numerical_deconvolution n times conc h dt).fraction_absorbed i ∧
      (numerical_deconvolution n times conc h dt).fraction_absorbed i ≤ 1) ∧
    (0 < trapCum times (inputRate n times conc h dt) (n - 1) →
      (numerical_deconvolution n times conc h dt).fraction_absorbed (n - 1) = 1) := by
  have hr : ∀ i, 0 ≤ inputRate n times conc h dt i := fun i => le_max_right _ 0
  have hmono' : ∀ i, i < n - 1 → times i ≤ times (i + 1) := fun i hi => (hmono i hi).le
  have hfc := trapCum_mono times (inputRate n times conc h dt) (n - 1) hmono'
    (fun i _ => hr i)
  have hfcnn : ∀ j, j ≤ n - 1 → 0 ≤ trapCum times (inputRate n times conc h dt) j :=
    fun j hj => hfc 0 j (Nat.zero_le j) hj
  have hfa : (numerical_deconvolution n times conc h dt).fraction_absorbed =
      (if 0 < trapCum times (inputRate n times conc h dt) (n - 1) then
        fun i => trapCum times (inputRate n times conc h dt) i /
          trapCum times (inputRate n times conc h dt) (n - 1)
      else trapCum times (inputRate n times conc h dt)) := rfl
  refine ⟨hr, ?_, ?_, ?_⟩
  · intro i hi
    rw [hfa]
    by_cases hpos : 0 < trapCum times (inputRate n times conc h dt) (n - 1)
    · rw [if_pos hpos]
      exact (div_le_div_iff_of_pos_right hpos).mpr (hfc i (i + 1) (by omega) (by omega))
    · rw [if_neg hpos]
      exact hfc i (i + 1) (by omega) (by omega)
  · intro i hi
    rw [hfa]
    by_cases hpos : 0 < trapCum times (inputRate n times conc h dt) (n - 1)
    · rw [if_pos hpos]
      constructor
      · exact div_nonneg (hfcnn i (by omega)) hpos.le
      · exact (div_le_one hpos).mpr (hfc i (n - 1) (by omega) le_rfl)
    · rw [if_neg hpos]
      have h0 : trapCum times (inputRate n times conc h dt) i = 0 := by
        have h1 := hfc i (n - 1) (by omega) le_rfl
        have h2 := hfcnn i (by omega)
        have h3 := not_lt.mp hpos
        linarith
      rw [h0]
      norm_num
  · intro hpos
    rw [hfa, if_pos hpos]
    exact div_self (ne_of_gt hpos)

theorem numerical_deconvolution_spec_witness :
    ((1 ≤ 3) ∧ (∀ i, i < 3 - 1 → wTimes i < wTimes (i + 1))) ∧
    (∀ i, 0 ≤ (numerical_deconvolution 3 wTimes wConc (fun _ => 1) (1 / 10)).input_rate i) :=
  ⟨⟨by decide, by decide⟩,
    (numerical_deconvolution_spec 3 wTimes wConc (fun _ => 1) (1 / 10)
      (by decide) (by decide)).1⟩

/-! ### Claims about the regression engine (C2, C5, C10) -/

theorem linregressRsq_two_point (x0 x1 y0 y1 : ℚ) (hx : x0 ≠ x1) (hy : y0 ≠ y1) :
    linregressRsq [x0, x1] [y0, y1] = 1 := by
  have hdx : x1 - x0 ≠ 0 := sub_ne_zero.mpr (Ne.symm hx)
  have hdy : y1 - y0 ≠ 0 := sub_ne_zero.mpr (Ne.symm hy)
  have hssx : ssDev [x0, x1] = (x1 - x0) ^ 2 / 2 := by simp [ssDev, listMean]; ring
  have hssy : ssDev [y0, y1] = (y1 - y0) ^ 2 / 2 := by simp [ssDev, listMean]; ring
  have hcr : ssCross [x0, x1] [y0, y1] = (x1 - x0) * (y1 - y0) / 2 := by
    simp [ssCross, listMean]; ring
  rw [linregressRsq, if_neg, hssx, hssy, hcr]
  · have hX : (x1 - x0) ^ 2 * (y1 - y0) ^ 2 / (2 * 2) ≠ (0 : ℚ) :=
      div_ne_zero (mul_ne_zero (pow_ne_zero 2 hdx) (pow_ne_zero 2 hdy)) (by norm_num)
    rw [div_mul_div_comm,
      show ((x1 - x0) * (y1 - y0) / 2) ^ 2 = (x1 - x0) ^ 2 * (y1 - y0) ^ 2 / (2 * 2) from by
        ring,
      div_self hX]
    exact min_self 1
  · push_neg
    rw [hssx, hssy]
    exact ⟨div_ne_zero (pow_ne_zero 2 hdx) (by norm_num),
      div_ne_zero (pow_ne_zero 2 hdy) (by norm_num)⟩

/-- C2 counterexample: with the two paired points `(0, 5)` and `(1, 5)` —
distinct in-vitro values but equal in-vivo values — `level_c_correlation`
returns `r_squared = 0`, not `1` as the claim asserts for every choice of
the two in-vivo values (`linregress` yields `r = 0` when the `y` values
have zero variance). -/
theorem two_point_rsq_cex :
    (level_c_correlation (fun _ _ => 0) (fun _ _ => 0) [0, 1] [5, 5]).r_squared = 0 ∧
    (0 : ℚ) ≠ 1 := by
  constructor
  · rw [level_c_correlation, if_neg (by simp)]
    show linregressRsq [0, 1] [5, 5] = 0
    rw [linregressRsq, if_pos]
    right
    show ((5 : ℚ) - listMean [5, 5]) ^ 2 + (((5 : ℚ) - listMean [5, 5]) ^ 2 + 0) = 0
    norm_num [listMean]
  · norm_num

/-- C2 (amended): for exactly 2 paired points whose in-vitro values are
distinct **and whose in-vivo values are also distinct**, both
`level_a_correlation` and `level_c_correlation` return `r_squared` equal
to `1` exactly; when the two in-vivo values coincide the returned
`r_squared` is `0`. -/
theorem two_point_rsq (pv se : List ℚ → List ℚ → ℚ) (x0 x1 y0 y1 : ℚ)
    (hx : x0 ≠ x1) (hy : y0 ≠ y1) :
    (level_c_correlation pv se [x0, x1] [y0, y1]).r_squared = 1 ∧
    (level_a_correlation pv se [[x0, x1]] [[y0, y1]]).r_squared = 1 := by
  have hpd : pooledDissolved [[x0, x1]] [[y0, y1]] = [x0, x1] := by simp [pooledDissolved]
  have hpa : pooledAbsorbed [[x0, x1]] [[y0, y1]] = [y0, y1] := by simp [pooledAbsorbed]
  constructor
  · rw [level_c_correlation, if_neg (by simp)]
    exact linregressRsq_two_point x0 x1 y0 y1 hx hy
  · rw [level_a_correlation, hpd, hpa, if_neg (by simp)]
    exact linregressRsq_two_point x0 x1 y0 y1 hx hy

theorem two_point_rsq_witness :
    ((0 : ℚ) ≠ 1 ∧ (2 : ℚ) ≠ 3) ∧
    (level_c_correlation (fun _ _ => 0) (fun _ _ => 0) [0, 1] [2, 3]).r_squared = 1 :=
  ⟨⟨by norm_num, by norm_num⟩,
    (two_point_rsq (fun _ _ => 0) (fun _ _ => 0) 0 1 2 3 (by norm_num) (by norm_num)).1⟩

/-- C5: with fewer than 2 pooled (Level A) or paired (Level C) points, both
correlation functions return the degenerate sentinel
`slope = 0, intercept = 0, r_squared = 0, p_value = 1, std_err = 0`
(and, being total functions, do not raise). -/
theorem degenerate_regression_sentinel (pv se : List ℚ → List ℚ → ℚ)
    (dl al : List (List ℚ)) (x y : List ℚ)
    (hA : (pooledDissolved dl al).length < 2) (hC : x.length < 2) :
    ((level_a_correlation pv se dl al).slope = 0 ∧
      (level_a_correlation pv se dl al).intercept = 0 ∧
      (level_a_correlation pv se dl al).r_squared = 0 ∧
      (level_a_correlation pv se dl al).p_value = 1 ∧
      (level_a_correlation pv se dl al).std_err = 0) ∧
    ((level_c_correlation pv se x y).slope = 0 ∧
      (level_c_correlation pv se x y).intercept = 0 ∧
      (level_c_correlation pv se x y).r_squared = 0 ∧
      (level_c_correlation pv se x y).p_value = 1 ∧
      (level_c_correlation pv se x y).std_err = 0) := by
  constructor
  · simp only [level_a_correlation]
    rw [if_pos hA]
    exact ⟨rfl, rfl, rfl, rfl, rfl⟩
  · simp only [level_c_correlation]
    rw [if_pos hC]
    exact ⟨rfl, rfl, rfl, rfl, rfl⟩

theorem degenerate_regression_sentinel_witness :
    ((pooledDissolved [] []).length < 2 ∧ ([] : List ℚ).length < 2) ∧
    ((level_a_correlation (fun _ _ => 0) (fun _ _ => 0) [] []).slope = 0 ∧
      (level_a_correlation (fun _ _ => 0) (fun _ _ => 0) [] []).intercept = 0 ∧
      (level_a_correlation (fun _ _ => 0) (fun _ _ => 0) [] []).r_squared = 0 ∧
      (level_a_correlation (fun _ _ => 0) (fun _ _ => 0) [] []).p_value = 1 ∧
      (level_a_correlation (fun _ _ => 0) (fun _ _ => 0) [] []).std_err = 0) :=
  ⟨⟨by decide, by decide⟩,
    (degenerate_regression_sentinel (fun _ _ => 0) (fun _ _ => 0) [] [] [] []
      (by decide) (by decide)).1⟩

theorem takeMin_flatten_length (l : List (List ℚ × List ℚ)) :
    ((l.map fun p => p.1.take (min p.1.length p.2.length)).flatten).length =
    ((l.map fun p => p.2.take (min p.1.length p.2.length)).flatten).length := by
  induction l with
  | nil => rfl
  | cons p t ih =>
    simp only [List.map_cons, List.flatten_cons, List.length_append, List.length_take, ih]
    omega

/-- C10: `level_a_correlation` pools, for every formulation, exactly the
first `min(len(dissolved), len(absorbed))` elements of each array, so the
pooled dissolved and absorbed arrays it returns always have equal length
(and no failure occurs on mismatched lengths: the function is total). -/
theorem level_a_pooling (pv se : List ℚ → List ℚ → ℚ) (dl al : List (List ℚ)) :
    (level_a_correlation pv se dl al).all_dissolved = pooledDissolved dl al ∧
    (level_a_correlation pv se dl al).all_absorbed = pooledAbsorbed dl al ∧
    pooledDissolved dl al =
      ((dl.zip al).map fun p => p.1.take (min p.1.length p.2.length)).flatten ∧
    pooledAbsorbed dl al =
      ((dl.zip al).map fun p => p.2.take (min p.1.length p.2.length)).flatten ∧
    (level_a_correlation pv se dl al).all_dissolved.length =
      (level_a_correlation pv se dl al).all_absorbed.length := by
  have h1 : (level_a_correlation pv se dl al).all_dissolved = pooledDissolved dl al := by
    by_cases h : (pooledDissolved dl al).length < 2
    · simp only [level_a_correlation]
      rw [if_pos h]
    · simp only [level_a_correlation]
      rw [if_neg h]
  have h2 : (level_a_correlation pv se dl al).all_absorbed = pooledAbsorbed dl al := by
    by_cases h : (pooledDissolved dl al).length < 2
    · simp only [level_a_correlation]
      rw [if_pos h]
    · simp only [level_a_correlation]
      rw [if_neg h]
  refine ⟨h1, h2, rfl, rfl, ?_⟩
  rw [h1, h2]
  exact takeMin_flatten_length (dl.zip al)

/-! ### Claim about `compute_de` (C3) -/

/-- C3 counterexample: for `times = [1, 2]`, `release = [100, 100]` the code
returns `100` (its rectangle is `release_end × (t_end − t_first) = 100`),
while the claimed formula with rectangle `release_end × t_end = 200` gives
`50`. -/
theorem compute_de_cex :
    compute_de [1, 2] [100, 100] = 100 ∧ compute_de_claimed [1, 2] [100, 100] = 50 := by
  constructor
  · norm_num [compute_de, trapz, trapzPairs]
  · norm_num [compute_de_claimed, trapz, trapzPairs]

/-- C3 (amended): for every non-empty release profile, `compute_de` returns
100 times the ratio of the trapezoidal area under the release curve to the
bounding-rectangle area `release_end × (t_end − t_first)` (final release
value times the elapsed time span), and returns 0 when that rectangle area
is 0. -/
theorem compute_de_spec (times release : List ℚ)
    (_ht : times ≠ []) (_hr : release ≠ []) :
    (release.getLastD 0 * (times.getLastD 0 - times.headI) = 0 →
      compute_de times release = 0) ∧
    (release.getLastD 0 * (times.getLastD 0 - times.headI) ≠ 0 →
      compute_de times release =
        trapz release times /
          (release.getLastD 0 * (times.getLastD 0 - times.headI)) * 100) := by
  constructor
  · intro h0
    simp only [compute_de]
    rw [if_pos h0]
  · intro h0
    simp only [compute_de]
    rw [if_neg h0]

theorem compute_de_spec_witness :
    (([0, 1, 2] : List ℚ) ≠ [] ∧ ([0, 50, 100] : List ℚ) ≠ [] ∧
      ([0, 50, 100] : List ℚ).getLastD 0 *
        (([0, 1, 2] : List ℚ).getLastD 0 - ([0, 1, 2] : List ℚ).headI) ≠ 0) ∧
    compute_de [0, 1, 2] [0, 50, 100] =
      trapz [0, 50, 100] [0, 1, 2] /
        (([0, 50, 100] : List ℚ).getLastD 0 *
          (([0, 1, 2] : List ℚ).getLastD 0 - ([0, 1, 2] : List ℚ).headI)) * 100 :=
  ⟨⟨by decide, by decide, by norm_num⟩,
    (compute_de_spec [0, 1, 2] [0, 50, 100] (by decide) (by decide)).2 (by norm_num)⟩

/-! ### Claim about `compute_prediction_error` (C6) -/

theorem foldl_max_init_le (l : List ℚ) (b : ℚ) : b ≤ l.foldl max b := by
  induction l generalizing b with
  | nil => exact le_rfl
  | cons x t ih => exact le_trans (le_max_left b x) (ih (max b x))

theorem mem_le_foldl_max (l : List ℚ) (b : ℚ) : ∀ a ∈ l, a ≤ l.foldl max b := by
  induction l generalizing b with
  | nil => intro a ha; exact absurd ha (List.not_mem_nil a)
  | cons x t ih =>
    intro a ha
    rcases List.mem_cons.mp ha with rfl | ha'
    · exact le_trans (le_max_right b a) (foldl_max_init_le t (max b a))
    · exact ih (max b x) a ha'

theorem foldl_max_mem_or_init (l : List ℚ) (b : ℚ) :
    l.foldl max b ∈ l ∨ l.foldl max b = b := by
  induction l generalizing b with
  | nil => exact Or.inr rfl
  | cons x t ih =>
    rcases ih (max b x) with h | h
    · exact Or.inl (List.mem_cons_of_mem x h)
    · rcases max_choice b x with hbx | hbx
      · exact Or.inr (by rw [List.foldl_cons, h, hbx])
      · exact Or.inl (by rw [List.foldl_cons, h, hbx]; exact List.mem_cons_self x t)

theorem zip_self_map_pe (l : List ℚ) :
    (l.zip l).map peItem = List.replicate l.length 0 := by
  induction l with
  | nil => rfl
  | cons x t ih =>
    simp only [List.zip_cons_cons, List.map_cons, ih, List.length_cons]
    by_cases hx : x = 0 <;> simp [peItem, hx, List.replicate_succ]

theorem foldl_max_replicate_zero (n : ℕ) : (List.replicate n (0 : ℚ)).foldl max 0 = 0 := by
  induction n with
  | zero => rfl
  | succ k ih => simpa [List.replicate_succ] using ih

/-- C6: `compute_prediction_error` returns per-item
`%PE = (Predicted − Observed)/Observed × 100` (0 where `Observed = 0`),
`mean_abs_pe` and `max_abs_pe` as the mean and maximum of `|%PE|`,
`passes_mean` iff `mean_abs_pe ≤ 10`, `passes_individual` iff
`max_abs_pe ≤ 15`, `passes_overall` iff both; and when predicted equals
observed item-wise, every `%PE` is 0, `mean_abs_pe` is 0, and all three
pass flags are true. -/
theorem compute_prediction_error_spec (predicted observed : List ℚ)
    (hlen : predicted.length = observed.length) (hne : observed ≠ []) :
    (compute_prediction_error predicted observed).pe_values =
      (predicted.zip observed).map
        (fun p => if p.2 = 0 then 0 else (p.1 - p.2) / p.2 * 100) ∧
    (compute_prediction_error predicted observed).mean_abs_pe =
      ((compute_prediction_error predicted observed).pe_values.map fun v => |v|).sum /
        ((compute_prediction_error predicted observed).pe_values.map fun v => |v|).length ∧
    (∀ a ∈ (compute_prediction_error predicted observed).abs_pe,
      a ≤ (compute_prediction_error predicted observed).max_abs_pe) ∧
    (compute_prediction_error predicted observed).max_abs_pe ∈
      (compute_prediction_error predicted observed).abs_pe ∧
    ((compute_prediction_error predicted observed).passes_mean = true ↔
      (compute_prediction_error predicted observed).mean_abs_pe ≤ 10) ∧
    ((compute_prediction_error predicted observed).passes_individual = true ↔
      (compute_prediction_error predicted observed).max_abs_pe ≤ 15) ∧
    ((compute_prediction_error predicted observed).passes_overall = true ↔
      (compute_prediction_error predicted observed).mean_abs_pe ≤ 10 ∧
        (compute_prediction_error predicted observed).max_abs_pe ≤ 15) ∧
    (predicted = observed →
      (compute_prediction_error predicted observed).pe_values =
        List.replicate observed.length 0 ∧
      (compute_prediction_error predicted observed).mean_abs_pe = 0 ∧
      (compute_prediction_error predicted observed).passes_mean = true ∧
      (compute_prediction_error predicted observed).passes_individual = true ∧
      (compute_prediction_error predicted observed).passes_overall = true) := by
  have hlen0 : 0 < (((predicted.zip observed).map peItem).map fun v => |v|).length := by
    simp only [List.length_map, List.length_zip, hlen, min_self]
    exact List.length_pos.mpr hne
  have hmax : (compute_prediction_error predicted observed).max_abs_pe =
      (((predicted.zip observed).map peItem).map fun v => |v|).foldl max 0 := by
    show (if 0 < (((predicted.zip observed).map peItem).map fun v => |v|).length then
        (((predicted.zip observed).map peItem).map fun v => |v|).foldl max 0
      else 0) = _
    rw [if_pos hlen0]
  have habs : (compute_prediction_error predicted observed).abs_pe =
      ((predicted.zip observed).map peItem).map fun v => |v| := rfl
  have h3 : ∀ a ∈ (compute_prediction_error predicted observed).abs_pe,
      a ≤ (compute_prediction_error predicted observed).max_abs_pe := by
    intro a ha
    rw [hmax]
    rw [habs] at ha
    exact mem_le_foldl_max _ 0 a ha
  have h4 : (compute_prediction_error predicted observed).max_abs_pe ∈
      (compute_prediction_error predicted observed).abs_pe := by
    rw [hmax, habs]
    rcases foldl_max_mem_or_init (((predicted.zip observed).map peItem).map fun v => |v|) 0
      with hmem | hzero
    · exact hmem
    · rcases List.exists_mem_of_length_pos hlen0 with ⟨a, hamem⟩
      have ha0 : 0 ≤ a := by
        rcases List.mem_map.mp hamem with ⟨v, _, rfl⟩
        exact abs_nonneg v
      have hale : a ≤ 0 := hzero ▸ mem_le_foldl_max _ 0 a hamem
      have : a = 0 := le_antisymm hale ha0
      rw [hzero, ← this]
      exact hamem
  have h5 : (compute_prediction_error predicted observed).passes_mean = true ↔
      (compute_prediction_error predicted observed).mean_abs_pe ≤ 10 :=
    decide_eq_true_iff
  have h6 : (compute_prediction_error predicted observed).passes_individual = true ↔
      (compute_prediction_error predicted observed).max_abs_pe ≤ 15 :=
    decide_eq_true_iff
  have h7 : (compute_prediction_error predicted observed).passes_overall = true ↔
      (compute_prediction_error predicted observed).mean_abs_pe ≤ 10 ∧
        (compute_prediction_error predicted observed).max_abs_pe ≤ 15 :=
    decide_eq_true_iff
  refine ⟨rfl, rfl, h3, h4, h5, h6, h7, ?_⟩
  intro hpo
  subst hpo
  have hpv : (compute_prediction_error predicted predicted).pe_values =
      List.replicate predicted.length 0 := zip_self_map_pe predicted
  have habs0 : (compute_prediction_error predicted predicted).abs_pe =
      List.replicate predicted.length 0 := by
    rw [habs]
    have : (predicted.zip predicted).map peItem = List.replicate predicted.length 0 :=
      zip_self_map_pe predicted
    rw [this]
    simp [List.map_replicate]
  have hmean0 : (compute_prediction_error predicted predicted).mean_abs_pe = 0 := by
    show ((compute_prediction_error predicted predicted).abs_pe.sum /
      (compute_prediction_error predicted predicted).abs_pe.length : ℚ) = 0
    rw [habs0]
    simp
  have hmax0 : (compute_prediction_error predicted predicted).max_abs_pe = 0 := by
    rw [hmax]
    have : ((predicted.zip predicted).map peItem).map (fun v => |v|) =
        List.replicate predicted.length 0 := by
      rw [zip_self_map_pe predicted]
      simp [List.map_replicate]
    rw [this]
    exact foldl_max_replicate_zero predicted.length
  exact ⟨hpv, hmean0, h5.mpr (by rw [hmean0]; norm_num),
    h6.mpr (by rw [hmax0]; norm_num),
    h7.mpr ⟨by rw [hmean0]; norm_num, by rw [hmax0]; norm_num⟩⟩

theorem compute_prediction_error_spec_witness :
    (([1, 2] : List ℚ).length = ([1, 2] : List ℚ).length ∧ ([1, 2] : List ℚ) ≠ []) ∧
    ((compute_prediction_error [1, 2] [1, 2]).pe_values = List.replicate 2 0 ∧
      (compute_prediction_error [1, 2] [1, 2]).mean_abs_pe = 0 ∧
      (compute_prediction_error [1, 2] [1, 2]).passes_mean = true ∧
      (compute_prediction_error [1, 2] [1, 2]).passes_individual = true ∧
      (compute_prediction_error [1, 2] [1, 2]).passes_overall = true) :=
  ⟨⟨rfl, by decide⟩,
    ((compute_prediction_error_spec [1, 2] [1, 2] rfl (by decide)).2.2.2.2.2.2.2) rfl⟩

/-! ### Claim about `compute_f1_f2` (C7) -/

theorem zip_self_sum_absdiff (l : List ℚ) :
    ((l.zip l).map fun q => |q.1 - q.2|).sum = 0 := by
  induction l with
  | nil => rfl
  | cons x t ih => simp [ih]

theorem zip_self_sum_sqdiff (l : List ℚ) :
    ((l.zip l).map fun q => (q.1 - q.2) ^ 2).sum = 0 := by
  induction l with
  | nil => rfl
  | cons x t ih => simp [ih]

/-- C7: for every non-empty dissolution profile used as both reference and
test, `compute_f1_f2` returns `f1 = 0` and `f2 = 100` exactly. -/
theorem compute_f1_f2_self (p : List ℚ) (_hp : p ≠ []) :
    compute_f1_f2 p p = (0, 100) := by
  have hf1 : f1Factor p p = 0 := by
    rw [f1Factor]
    by_cases hs : 0 < p.sum
    · rw [if_pos hs, zip_self_sum_absdiff, zero_div, zero_mul]
    · rw [if_neg hs]
  have hmsd : meanSqDiff p p = 0 := by
    rw [meanSqDiff, zip_self_sum_sqdiff, zero_div]
  have hf2 : f2Factor p p = 100 := by
    rw [f2Factor, hmsd]
    push_cast
    rw [add_zero, Real.sqrt_one, div_one]
    rw [show (100 : ℝ) = 10 ^ (2 : ℕ) by norm_num, Real.logb_pow]
    rw [Real.logb_self_eq_one] <;> norm_num
  rw [compute_f1_f2, hf1, hf2]

theorem compute_f1_f2_self_witness :
    ([50, 80] : List ℚ) ≠ [] ∧ compute_f1_f2 [50, 80] [50, 80] = (0, 100) :=
  ⟨by decide, compute_f1_f2_self [50, 80] (by decide)⟩

/-! ### Claim about `one_compartment_oral` (C8) -/

/-- C8: when `|ka − ke|` is below the numerical-negligibility threshold
`1e-10`, `one_compartment_oral` returns the limiting closed form
`(dose/vd)·ka·t·exp(−ke·t)` at every time point; otherwise it returns
`(dose·ka)/(vd·(ka−ke))·(exp(−ke·t) − exp(−ka·t))`. -/
theorem one_compartment_oral_spec (t dose ka ke vd : ℚ) (_hvd : 0 < vd) :
    (|ka - ke| < 1 / 10 ^ 10 →
      one_compartment_oral t dose ka ke vd =
        (dose : ℝ) / (vd : ℝ) * (ka : ℝ) * (t : ℝ) * Real.exp (-(ke : ℝ) * (t : ℝ))) ∧
    (1 / 10 ^ 10 ≤ |ka - ke| →
      one_compartment_oral t dose ka ke vd =
        (dose : ℝ) * (ka : ℝ) / ((vd : ℝ) * ((ka : ℝ) - (ke : ℝ))) *
          (Real.exp (-(ke : ℝ) * (t : ℝ)) - Real.exp (-(ka : ℝ) * (t : ℝ)))) := by
  constructor
  · intro hlt
    rw [one_compartment_oral, if_pos hlt]
    push_cast
    ring
  · intro hge
    rw [one_compartment_oral, if_neg (not_lt.mpr hge)]
    push_cast
    ring

theorem one_compartment_oral_spec_witness :
    ((0 : ℚ) < 50 ∧ (1 : ℚ) / 10 ^ 10 ≤ |(45 : ℚ) / 100 - 1 / 10|) ∧
    one_compartment_oral 4 100 (45 / 100) (1 / 10) 50 =
      ((100 : ℚ) : ℝ) * ((45 / 100 : ℚ) : ℝ) /
        (((50 : ℚ) : ℝ) * (((45 / 100 : ℚ) : ℝ) - ((1 / 10 : ℚ) : ℝ))) *
        (Real.exp (-((1 / 10 : ℚ) : ℝ) * ((4 : ℚ) : ℝ)) -
          Real.exp (-((45 / 100 : ℚ) : ℝ) * ((4 : ℚ) : ℝ))) :=
  ⟨⟨by norm_num, by
      rw [show (45 : ℚ) / 100 - 1 / 10 = 7 / 20 by norm_num,
        abs_of_nonneg (by norm_num : (0 : ℚ) ≤ 7 / 20)]
      norm_num⟩,
    (one_compartment_oral_spec 4 100 (45 / 100) (1 / 10) 50 (by norm_num)).2 (by
      rw [show (45 : ℚ) / 100 - 1 / 10 = 7 / 20 by norm_num,
        abs_of_nonneg (by norm_num : (0 : ℚ) ≤ 7 / 20)]
      norm_num)⟩

end IVIVC
